import Mathlib

/-!
Shallow embedding of `src/SRX/check_jsrx_session.py` (a Nagios check for
Juniper SRX flow sessions).

The script's core is:
* `get_session`: walks the XML response; for each `flow-session` node it
  builds a Python dict of seven base fields, merges each `flow-information`
  child into the dict under keys `direction.text + ':<field>'`, and appends
  a copy of the dict to the result list when `session-state.text == 'Active'`.
  Accessing `.text` on an absent child (`find` returned `None`) raises
  `AttributeError`; concatenating `None + str` raises `TypeError`.
* `main` (with `--nagios`): if the list is non-empty it prints
  `'SESSION OK - Session ID ' + s[0].get('session-id') + ' | bytes_in=' + ...`
  and otherwise prints `SESSION CRITICAL`; in both branches the process then
  ends normally (exit status 0).

An XML child element is modelled as `Option (Option String)`: the outer
`Option` is whether `find` located the element, the inner one is the
element's `text` (which `xml.etree` reports as `None` for an empty element).
A Python dict of strings is an insertion-ordered association list
`List (String × Option String)`.
-/

inductive PyError where
  | attributeError : PyError
  | typeError : PyError
deriving DecidableEq, Repr

/-- One `flow-information` child of a session node: the seven children the
script reads (`find` result paired with the element's text). -/
structure RawFlow where
  direction : Option (Option String)
  source_address : Option (Option String)
  destination_address : Option (Option String)
  source_port : Option (Option String)
  destination_port : Option (Option String)
  protocol : Option (Option String)
  byte_cnt : Option (Option String)
deriving DecidableEq, Repr

/-- One `flow-session` node: the seven scalar children the script reads plus
the list of `flow-information` children in document order. -/
structure RawSession where
  session_state : Option (Option String)
  session_identifier : Option (Option String)
  policy : Option (Option String)
  configured_timeout : Option (Option String)
  timeout : Option (Option String)
  start_time : Option (Option String)
  duration : Option (Option String)
  flows : List RawFlow
deriving DecidableEq, Repr

/-- `element.text` for a `find` result: raises `AttributeError` when the
element is absent, otherwise yields the (possibly `None`) text. -/
def textOf : Option (Option String) → Except PyError (Option String)
  | none => .error .attributeError
  | some t => .ok t

/-- `element.text` in a position where the text is then concatenated with a
string literal: absent element raises `AttributeError`, `None` text raises
`TypeError` (from `None + str`). -/
def strOf : Option (Option String) → Except PyError String
  | none => .error .attributeError
  | some none => .error .typeError
  | some (some s) => .ok s

/-- A Python dict with string keys and `Optional[str]` values, as an
insertion-ordered association list. -/
abbrev SessionRecord := List (String × Option String)

/-- Python `d[k] = v` / a one-key `d.update(...)`: overwrite in place when
the key exists, append otherwise. -/
def dictUpdate1 (r : SessionRecord) (k : String) (v : Option String) : SessionRecord :=
  if (r.find? (fun p => decide (p.1 = k))).isSome then
    r.map (fun p => if p.1 = k then (k, v) else p)
  else
    r ++ [(k, v)]

/-- Lookup returning the stored value (`none` when the key is absent). -/
def dictFind (r : SessionRecord) (k : String) : Option (Option String) :=
  (r.find? (fun p => decide (p.1 = k))).map Prod.snd

/-- Python `d.get(k)`: `None` both when the key is absent and when the stored
value is `None`. -/
def pyGet (r : SessionRecord) (k : String) : Option String :=
  (dictFind r k).join

/-- The `session_dict.update({direction.text + ':source-address' : ...})`
call for one `flow-information` child, in the literal's evaluation order. -/
def mergeFlow (r : SessionRecord) (f : RawFlow) : Except PyError SessionRecord :=
  match strOf f.direction with
  | .error e => .error e
  | .ok d =>
  match textOf f.source_address with
  | .error e => .error e
  | .ok sa =>
  match textOf f.destination_address with
  | .error e => .error e
  | .ok da =>
  match textOf f.source_port with
  | .error e => .error e
  | .ok sp =>
  match textOf f.destination_port with
  | .error e => .error e
  | .ok dp =>
  match textOf f.protocol with
  | .error e => .error e
  | .ok pro =>
  match textOf f.byte_cnt with
  | .error e => .error e
  | .ok bc =>
  .ok (dictUpdate1 (dictUpdate1 (dictUpdate1 (dictUpdate1 (dictUpdate1 (dictUpdate1 r
    (d ++ ":source-address") sa)
    (d ++ ":destination-address") da)
    (d ++ ":source_port") sp)
    (d ++ ":destination-port") dp)
    (d ++ ":protocol") pro)
    (d ++ ":byte-count") bc)

/-- The inner `for flow in session.findall('./flow-information')` loop. -/
def mergeFlows : SessionRecord → List RawFlow → Except PyError SessionRecord
  | r, [] => .ok r
  | r, f :: rest =>
    match mergeFlow r f with
    | .error e => .error e
    | .ok r' => mergeFlows r' rest

/-- The dict literal built for one session node, before any flow merge. -/
def baseDict (sid sst pol tmo stt dur cto : Option String) : SessionRecord :=
  [("session-id", sid), ("session-state", sst), ("policy", pol),
    ("timeout", tmo), ("start-time", stt), ("duration", dur),
    ("configured-timeout", cto)]

/-- Building `session_dict` for one session node (the dict literal in its
evaluation order, then all flow merges). -/
def buildRecord (s : RawSession) : Except PyError SessionRecord :=
  match textOf s.session_identifier with
  | .error e => .error e
  | .ok sid =>
  match textOf s.session_state with
  | .error e => .error e
  | .ok sst =>
  match textOf s.policy with
  | .error e => .error e
  | .ok pol =>
  match textOf s.timeout with
  | .error e => .error e
  | .ok tmo =>
  match textOf s.start_time with
  | .error e => .error e
  | .ok stt =>
  match textOf s.duration with
  | .error e => .error e
  | .ok dur =>
  match textOf s.configured_timeout with
  | .error e => .error e
  | .ok cto =>
  mergeFlows (baseDict sid sst pol tmo stt dur cto) s.flows

/-- The record `get_session` keeps for a session whose construction
succeeded (junk default otherwise). -/
def recordD (s : RawSession) : SessionRecord :=
  (buildRecord s).toOption.getD []

/-- A stored dict value that is a non-empty string. -/
def valOk (v : Option String) : Prop :=
  ∃ t, v = some t ∧ t ≠ ""

/-- An XML child that is present and carries non-empty text. -/
def textNonempty (e : Option (Option String)) : Prop :=
  ∃ t, e = some (some t) ∧ t ≠ ""

/-- All six value-bearing children of a flow node carry non-empty text. -/
def flowTextsOk (f : RawFlow) : Prop :=
  textNonempty f.source_address ∧ textNonempty f.destination_address ∧
  textNonempty f.source_port ∧ textNonempty f.destination_port ∧
  textNonempty f.protocol ∧ textNonempty f.byte_cnt

/-- All scalar children of a session node and of its flows carry non-empty
text. -/
def sessionTextsOk (s : RawSession) : Prop :=
  textNonempty s.session_identifier ∧ textNonempty s.session_state ∧
  textNonempty s.policy ∧ textNonempty s.timeout ∧ textNonempty s.start_time ∧
  textNonempty s.duration ∧ textNonempty s.configured_timeout ∧
  ∀ f ∈ s.flows, flowTextsOk f

/-- The 7 base keys followed by the 12 directional keys of a two-winged
session record. -/
def keys19 : List String :=
  ["session-id", "session-state", "policy", "timeout", "start-time",
   "duration", "configured-timeout",
   "In:source-address", "In:destination-address", "In:source_port",
   "In:destination-port", "In:protocol", "In:byte-count",
   "Out:source-address", "Out:destination-address", "Out:source_port",
   "Out:destination-port", "Out:protocol", "Out:byte-count"]

/-- `session_state.text == 'Active'` (the element is always present at the
point the script evaluates this, since building the dict succeeded). -/
def sessionActive (s : RawSession) : Bool :=
  decide (s.session_state = some (some "Active"))

/-- The `for session in root.findall(...)` loop of `get_session`: build each
record, append it when active, propagate the first uncaught exception. -/
def get_session : List RawSession → Except PyError (List SessionRecord)
  | [] => .ok []
  | s :: rest =>
    match buildRecord s with
    | .error e => .error e
    | .ok r =>
      match get_session rest with
      | .error e => .error e
      | .ok tail => .ok (if sessionActive s then r :: tail else tail)

/-- `str + Optional[str]` in Python: `TypeError` when the right operand is
`None`. -/
def pyConcat (a : String) (b : Option String) : Except PyError String :=
  match b with
  | none => .error .typeError
  | some s => .ok (a ++ s)

/-- The Nagios OK line expression of `main`, in Python's left-to-right
evaluation order. -/
def okLine (r : SessionRecord) : Except PyError String :=
  match pyConcat "SESSION OK - Session ID " (pyGet r "session-id") with
  | .error e => .error e
  | .ok a1 =>
  match pyConcat (a1 ++ " | bytes_in=") (pyGet r "In:byte-count") with
  | .error e => .error e
  | .ok a2 =>
  match pyConcat (a2 ++ ";bytes_out=") (pyGet r "Out:byte-count") with
  | .error e => .error e
  | .ok a3 =>
  match pyConcat (a3 ++ ";configured_timeout=") (pyGet r "configured-timeout") with
  | .error e => .error e
  | .ok a4 =>
  match pyConcat (a4 ++ ";timeout=") (pyGet r "timeout") with
  | .error e => .error e
  | .ok a5 =>
  .ok (a5 ++ ";;")

/-- The `--nagios` branch of `main`: the line written to stdout paired with
the process exit status (the script falls off the end of `main` in both
branches, so the interpreter exits with status 0). -/
def mainNagios (session : List SessionRecord)  : Except PyError (String × Nat) :=
  match session with
  | [] => .ok ("SESSION CRITICAL", 0)
  | r :: _ =>
    match okLine r with
    | .error e => .error e
    | .ok line => .ok (line, 0)

/-- A well-formed inbound flow node (used as concrete test input). -/
def fIn1 : RawFlow :=
  ⟨some (some "In"), some (some "1.1.1.1"), some (some "2.2.2.2"),
   some (some "1111"), some (some "80"), some (some "tcp"), some (some "10")⟩

/-- A second inbound flow node with different values (duplicate direction). -/
def fIn2 : RawFlow :=
  ⟨some (some "In"), some (some "3.3.3.3"), some (some "4.4.4.4"),
   some (some "2222"), some (some "443"), some (some "udp"), some (some "20")⟩

/-- A well-formed outbound flow node. -/
def fOut : RawFlow :=
  ⟨some (some "Out"), some (some "5.5.5.5"), some (some "6.6.6.6"),
   some (some "3333"), some (some "22"), some (some "tcp"), some (some "30")⟩

/-- An inbound flow node whose `byte-cnt` child is absent. -/
def fInBad : RawFlow :=
  ⟨some (some "In"), some (some "1.1.1.1"), some (some "2.2.2.2"),
   some (some "1111"), some (some "80"), some (some "tcp"), none⟩

/-- Active session with a duplicated `In` direction followed by `Out`. -/
def sC : RawSession :=
  ⟨some (some "Active"), some (some "100"), some (some "pol"), some (some "4000"),
   some (some "3999"), some (some "stt"), some (some "77"), [fIn1, fIn2, fOut]⟩

/-- Active session with a single `In` wing. -/
def sW : RawSession :=
  ⟨some (some "Active"), some (some "7"), some (some "pw"), some (some "41"),
   some (some "40"), some (some "sw"), some (some "9"), [fIn1]⟩

/-- Active session whose `policy` element is present but empty
(`policy.text is None`), with both wings well-formed. -/
def sCx : RawSession :=
  ⟨some (some "Active"), some (some "55"), some none, some (some "401"),
   some (some "400"), some (some "sx"), some (some "8"), [fIn1, fOut]⟩

/-- Active session with no flow children. -/
def sA : RawSession :=
  ⟨some (some "Active"), some (some "11"), some (some "pa"), some (some "21"),
   some (some "20"), some (some "sa"), some (some "5"), []⟩

/-- Backup (non-active) session with no flow children. -/
def sB : RawSession :=
  ⟨some (some "Backup"), some (some "12"), some (some "pb"), some (some "22"),
   some (some "23"), some (some "sb"), some (some "6"), []⟩

/-- Backup (non-active) session carrying a malformed flow node. -/
def sBad : RawSession :=
  ⟨some (some "Backup"), some (some "13"), some (some "pc"), some (some "24"),
   some (some "25"), some (some "sc"), some (some "3"), [fInBad]⟩

/-- Session node whose `policy` child is absent entirely. -/
def sNoPol : RawSession :=
  ⟨some (some "Active"), some (some "14"), none, some (some "26"),
   some (some "27"), some (some "sd"), some (some "2"), []⟩

/-- The record extracted from `sA`. -/
def recA : SessionRecord :=
  [("session-id", some "11"), ("session-state", some "Active"),
   ("policy", some "pa"), ("timeout", some "20"), ("start-time", some "sa"),
   ("duration", some "5"), ("configured-timeout", some "21")]

/-- The record extracted from `sW`. -/
def recW : SessionRecord :=
  [("session-id", some "7"), ("session-state", some "Active"),
   ("policy", some "pw"), ("timeout", some "40"), ("start-time", some "sw"),
   ("duration", some "9"), ("configured-timeout", some "41"),
   ("In:source-address", some "1.1.1.1"), ("In:destination-address", some "2.2.2.2"),
   ("In:source_port", some "1111"), ("In:destination-port", some "80"),
   ("In:protocol", some "tcp"), ("In:byte-count", some "10")]

/-- The record extracted from `sC` (the duplicated `In` wing resolved). -/
def recC : SessionRecord :=
  [("session-id", some "100"), ("session-state", some "Active"),
   ("policy", some "pol"), ("timeout", some "3999"), ("start-time", some "stt"),
   ("duration", some "77"), ("configured-timeout", some "4000"),
   ("In:source-address", some "3.3.3.3"), ("In:destination-address", some "4.4.4.4"),
   ("In:source_port", some "2222"), ("In:destination-port", some "443"),
   ("In:protocol", some "udp"), ("In:byte-count", some "20"),
   ("Out:source-address", some "5.5.5.5"), ("Out:destination-address", some "6.6.6.6"),
   ("Out:source_port", some "3333"), ("Out:destination-port", some "22"),
   ("Out:protocol", some "tcp"), ("Out:byte-count", some "30")]

/-- The record extracted from `sCx` (note the `none` stored under `policy`). -/
def recCx : SessionRecord :=
  [("session-id", some "55"), ("session-state", some "Active"),
   ("policy", none), ("timeout", some "400"), ("start-time", some "sx"),
   ("duration", some "8"), ("configured-timeout", some "401"),
   ("In:source-address", some "1.1.1.1"), ("In:destination-address", some "2.2.2.2"),
   ("In:source_port", some "1111"), ("In:destination-port", some "80"),
   ("In:protocol", some "tcp"), ("In:byte-count", some "10"),
   ("Out:source-address", some "5.5.5.5"), ("Out:destination-address", some "6.6.6.6"),
   ("Out:source_port", some "3333"), ("Out:destination-port", some "22"),
   ("Out:protocol", some "tcp"), ("Out:byte-count", some "30")]

/-! ### String facts used to disambiguate dictionary keys -/

theorem string_data_append (s t : String) : (s ++ t).data = s.data ++ t.data := by
  cases s
  cases t
  rfl

theorem string_eq_of_data {s t : String} (h : s.data = t.data) : s = t := by
  cases s
  cases t
  exact congrArg String.mk h

/-- `u` and `v` differ at some position counted from their right ends that
lies inside both of them; hence no two strings extend them on the left to
equal results. -/
def revDiffB (u v : String) : Bool :=
  (List.range (min u.data.length v.data.length)).any
    (fun i => decide (u.data.reverse[i]? ≠ v.data.reverse[i]?))

theorem append_ne_of_revDiffB (u v : String) (h : revDiffB u v = true) :
    ∀ d e : String, d ++ u ≠ e ++ v := by
  intro d e heq
  obtain ⟨i, hi, hne⟩ := List.any_eq_true.mp h
  have hiu : i < u.data.length :=
    lt_of_lt_of_le (List.mem_range.mp hi) (min_le_left _ _)
  have hiv : i < v.data.length :=
    lt_of_lt_of_le (List.mem_range.mp hi) (min_le_right _ _)
  have hdata : d.data ++ u.data = e.data ++ v.data := by
    have h2 := congrArg String.data heq
    rwa [string_data_append, string_data_append] at h2
  have hrev : u.data.reverse ++ d.data.reverse = v.data.reverse ++ e.data.reverse := by
    have h3 := congrArg List.reverse hdata
    simpa [List.reverse_append] using h3
  have h1 : (u.data.reverse ++ d.data.reverse)[i]? = u.data.reverse[i]? :=
    List.getElem?_append_left (by simpa using hiu)
  have h2 : (v.data.reverse ++ e.data.reverse)[i]? = v.data.reverse[i]? :=
    List.getElem?_append_left (by simpa using hiv)
  exact (of_decide_eq_true hne) (by rw [← h1, hrev, h2])

theorem append_tail_cancel {u d e : String} (h : d ++ u = e ++ u) : d = e := by
  apply string_eq_of_data
  have hdata : d.data ++ u.data = e.data ++ u.data := by
    have h2 := congrArg String.data h
    rwa [string_data_append, string_data_append] at h2
  exact List.append_cancel_right hdata

theorem append_colon_ne {t b : String} (hc : ':' ∈ t.data) (hb : ':' ∉ b.data) :
    ∀ d : String, d ++ t ≠ b := by
  intro d heq
  apply hb
  have h2 := congrArg String.data heq
  rw [string_data_append] at h2
  rw [← h2]
  exact List.mem_append_right _ hc

/-- The key suffixes the flow merge writes (in write order), and the
hyphenated `:source-port` that never occurs. -/
def realTails : List String :=
  [":source-address", ":destination-address", ":source_port",
   ":destination-port", ":protocol", ":byte-count"]

def allTails : List String := realTails ++ [":source-port"]

def baseKeys : List String :=
  ["session-id", "session-state", "policy", "timeout", "start-time",
   "duration", "configured-timeout"]

theorem tails_revDiff :
    ∀ u ∈ allTails, ∀ v ∈ allTails, u ≠ v → revDiffB u v = true := by
  decide

theorem tails_colon : ∀ t ∈ allTails, ':' ∈ t.data := by
  decide

theorem baseKeys_no_colon : ∀ b ∈ baseKeys, ':' ∉ b.data := by
  decide

theorem dirKey_ne_dirKey {u v : String} (hu : u ∈ allTails) (hv : v ∈ allTails)
    (huv : u ≠ v) : ∀ d e : String, d ++ u ≠ e ++ v :=
  append_ne_of_revDiffB u v (tails_revDiff u hu v hv huv)

theorem dirKey_ne_base {t b : String} (ht : t ∈ allTails) (hb : b ∈ baseKeys) :
    ∀ d : String, d ++ t ≠ b :=
  append_colon_ne (tails_colon t ht) (baseKeys_no_colon b hb)

theorem realTails_subset {t : String} (ht : t ∈ realTails) : t ∈ allTails :=
  List.mem_append_left _ ht

/-! ### Dictionary lemmas -/

theorem dictFind_isSome_iff_mem (r : SessionRecord) (k : String) :
    (dictFind r k).isSome ↔ k ∈ r.map Prod.fst := by
  unfold dictFind
  rw [Option.isSome_map']
  rw [List.find?_isSome]
  constructor
  · rintro ⟨p, hp, hpk⟩
    exact List.mem_map.mpr ⟨p, hp, (of_decide_eq_true hpk).symm ▸ rfl⟩
  · intro hmem
    obtain ⟨p, hp, hfst⟩ := List.mem_map.mp hmem
    exact ⟨p, hp, decide_eq_true hfst⟩

theorem find?_map_update_self (r : SessionRecord) (k : String) (v : Option String)
    (h : (r.find? (fun p => decide (p.1 = k))).isSome) :
    (r.map (fun p => if p.1 = k then (k, v) else p)).find? (fun p => decide (p.1 = k))
      = some (k, v) := by
  induction r with
  | nil => simp at h
  | cons p r ih =>
    by_cases hp : p.1 = k
    · simp [hp]
    · have h' : (r.find? (fun p => decide (p.1 = k))).isSome := by
        simpa [List.find?_cons_of_neg, hp] using h
      simp [hp, ih h']

theorem find?_map_update_other (r : SessionRecord) (k k' : String) (v : Option String)
    (hk : k' ≠ k) :
    (r.map (fun p => if p.1 = k then (k, v) else p)).find? (fun p => decide (p.1 = k'))
      = r.find? (fun p => decide (p.1 = k')) := by
  induction r with
  | nil => simp
  | cons p r ih =>
    simp only [List.map_cons]
    by_cases hp : p.1 = k
    · rw [if_pos hp]
      have hkk : ¬ ((k, v).1 = k') := fun h => hk (h.symm ▸ rfl)
      have hpk : ¬ (p.1 = k') := by
        rw [hp]
        exact fun h => hk h.symm
      rw [List.find?_cons_of_neg _ (by simpa using hkk),
        List.find?_cons_of_neg _ (by simpa using hpk)]
      exact ih
    · rw [if_neg hp]
      by_cases hp' : p.1 = k'
      · rw [List.find?_cons_of_pos _ (by simpa using hp'),
          List.find?_cons_of_pos _ (by simpa using hp')]
      · rw [List.find?_cons_of_neg _ (by simpa using hp'),
          List.find?_cons_of_neg _ (by simpa using hp')]
        exact ih

theorem dictFind_update (r : SessionRecord) (k k' : String) (v : Option String) :
    dictFind (dictUpdate1 r k v) k' = if k' = k then some v else dictFind r k' := by
  unfold dictUpdate1
  by_cases hpres : (r.find? (fun p => decide (p.1 = k))).isSome
  · rw [if_pos hpres]
    by_cases hk : k' = k
    · subst hk
      unfold dictFind
      rw [find?_map_update_self r k' v hpres]
      simp
    · unfold dictFind
      rw [find?_map_update_other r k k' v hk]
      simp [hk]
  · rw [if_neg hpres]
    unfold dictFind
    rw [List.find?_append]
    by_cases hk : k' = k
    · subst hk
      have hnone : r.find? (fun p => decide (p.1 = k')) = none :=
        Option.not_isSome_iff_eq_none.mp hpres
      simp [hnone]
    · have hkk : ¬ (k = k') := fun h => hk h.symm
      simp [hk, hkk]

theorem dictFind_update_isSome_mono (r : SessionRecord) (k k' : String) (v : Option String)
    (h : (dictFind r k').isSome) : (dictFind (dictUpdate1 r k v) k').isSome := by
  rw [dictFind_update]
  by_cases hk : k' = k <;> simp [hk, h]

theorem dictUpdate1_keys_present (r : SessionRecord) (k : String) (v : Option String)
    (h : (r.find? (fun p => decide (p.1 = k))).isSome) :
    (dictUpdate1 r k v).map Prod.fst = r.map Prod.fst := by
  unfold dictUpdate1
  rw [if_pos h, List.map_map]
  apply List.map_congr_left
  intro p hp
  by_cases hpk : p.1 = k <;> simp [Function.comp, hpk]

theorem dictUpdate1_keys_absent (r : SessionRecord) (k : String) (v : Option String)
    (h : ¬ (r.find? (fun p => decide (p.1 = k))).isSome) :
    (dictUpdate1 r k v).map Prod.fst = r.map Prod.fst ++ [k] := by
  unfold dictUpdate1
  rw [if_neg h]
  simp

theorem dictUpdate1_nodup (r : SessionRecord) (k : String) (v : Option String)
    (h : (r.map Prod.fst).Nodup) : ((dictUpdate1 r k v).map Prod.fst).Nodup := by
  by_cases hpres : (r.find? (fun p => decide (p.1 = k))).isSome
  · rw [dictUpdate1_keys_present r k v hpres]
    exact h
  · rw [dictUpdate1_keys_absent r k v hpres]
    have hk : k ∉ r.map Prod.fst := by
      intro hmem
      apply hpres
      rw [List.find?_isSome]
      obtain ⟨p, hp, hfst⟩ := List.mem_map.mp hmem
      exact ⟨p, hp, decide_eq_true hfst⟩
    simp [List.nodup_append, h, hk]

theorem dictFind_eq_some_mem {r : SessionRecord} {k : String} {v : Option String}
    (h : dictFind r k = some v) : ∃ p ∈ r, p.1 = k ∧ p.2 = v := by
  unfold dictFind at h
  cases hf : r.find? (fun p => decide (p.1 = k)) with
  | none => rw [hf] at h; cases h
  | some p =>
    rw [hf] at h
    have hm := List.mem_of_find?_eq_some hf
    have hp := List.find?_some hf
    refine ⟨p, hm, of_decide_eq_true hp, ?_⟩
    exact Option.some.inj h

/-! ### Flow-merge lemmas -/

theorem mergeFlow_ok_elim {r r' : SessionRecord} {f : RawFlow}
    (h : mergeFlow r f = .ok r') :
    ∃ d sa da sp dp pro bc,
      f.direction = some (some d) ∧ f.source_address = some sa ∧
      f.destination_address = some da ∧ f.source_port = some sp ∧
      f.destination_port = some dp ∧ f.protocol = some pro ∧ f.byte_cnt = some bc ∧
      r' = dictUpdate1 (dictUpdate1 (dictUpdate1 (dictUpdate1 (dictUpdate1 (dictUpdate1 r
        (d ++ ":source-address") sa) (d ++ ":destination-address") da)
        (d ++ ":source_port") sp) (d ++ ":destination-port") dp)
        (d ++ ":protocol") pro) (d ++ ":byte-count") bc := by
  unfold mergeFlow at h
  rcases hd : f.direction with _ | td
  · rw [hd] at h
    simp [strOf] at h
  rcases td with _ | d
  · rw [hd] at h
    simp [strOf] at h
  rw [hd] at h
  simp only [strOf] at h
  rcases hsa : f.source_address with _ | sa
  · rw [hsa] at h
    simp [textOf] at h
  rw [hsa] at h
  simp only [textOf] at h
  rcases hda : f.destination_address with _ | da
  · rw [hda] at h
    simp [textOf] at h
  rw [hda] at h
  simp only [textOf] at h
  rcases hsp : f.source_port with _ | sp
  · rw [hsp] at h
    simp [textOf] at h
  rw [hsp] at h
  simp only [textOf] at h
  rcases hdp : f.destination_port with _ | dp
  · rw [hdp] at h
    simp [textOf] at h
  rw [hdp] at h
  simp only [textOf] at h
  rcases hpro : f.protocol with _ | pro
  · rw [hpro] at h
    simp [textOf] at h
  rw [hpro] at h
  simp only [textOf] at h
  rcases hbc : f.byte_cnt with _ | bc
  · rw [hbc] at h
    simp [textOf] at h
  rw [hbc] at h
  simp only [textOf] at h
  refine ⟨d, sa, da, sp, dp, pro, bc, rfl, rfl, rfl, rfl, rfl, rfl, rfl, ?_⟩
  exact (Except.ok.inj h).symm

theorem mergeFlow_dictFind_other {r r' : SessionRecord} {f : RawFlow} {k : String}
    (h : mergeFlow r f = .ok r')
    (hk : ∀ d, f.direction = some (some d) → ∀ t ∈ realTails, k ≠ d ++ t) :
    dictFind r' k = dictFind r k := by
  obtain ⟨d, sa, da, sp, dp, pro, bc, hd, _, _, _, _, _, _, hr⟩ := mergeFlow_ok_elim h
  subst hr
  have h1 := hk d hd
  rw [dictFind_update, if_neg (h1 ":byte-count" (by decide)),
    dictFind_update, if_neg (h1 ":protocol" (by decide)),
    dictFind_update, if_neg (h1 ":destination-port" (by decide)),
    dictFind_update, if_neg (h1 ":source_port" (by decide)),
    dictFind_update, if_neg (h1 ":destination-address" (by decide)),
    dictFind_update, if_neg (h1 ":source-address" (by decide))]

theorem mergeFlow_dictFind_self {r r' : SessionRecord} {f : RawFlow} {d : String}
    (h : mergeFlow r f = .ok r') (hd : f.direction = some (some d)) :
    (∃ v, f.source_address = some v ∧ dictFind r' (d ++ ":source-address") = some v) ∧
    (∃ v, f.destination_address = some v ∧
      dictFind r' (d ++ ":destination-address") = some v) ∧
    (∃ v, f.source_port = some v ∧ dictFind r' (d ++ ":source_port") = some v) ∧
    (∃ v, f.destination_port = some v ∧
      dictFind r' (d ++ ":destination-port") = some v) ∧
    (∃ v, f.protocol = some v ∧ dictFind r' (d ++ ":protocol") = some v) ∧
    (∃ v, f.byte_cnt = some v ∧ dictFind r' (d ++ ":byte-count") = some v) := by
  obtain ⟨d', sa, da, sp, dp, pro, bc, hd', hsa, hda, hsp, hdp, hpro, hbc, hr⟩ :=
    mergeFlow_ok_elim h
  rw [hd] at hd'
  have hdd : d = d' := Option.some.inj (Option.some.inj hd')
  rw [← hdd] at hr
  subst hr
  have hne : ∀ u ∈ allTails, ∀ v ∈ allTails, u ≠ v → d ++ u ≠ d ++ v :=
    fun u hu v hv huv => dirKey_ne_dirKey hu hv huv d d
  refine ⟨⟨sa, hsa, ?_⟩, ⟨da, hda, ?_⟩, ⟨sp, hsp, ?_⟩, ⟨dp, hdp, ?_⟩,
    ⟨pro, hpro, ?_⟩, ⟨bc, hbc, ?_⟩⟩
  · rw [dictFind_update,
      if_neg (hne ":source-address" (by decide) ":byte-count" (by decide) (by decide)),
      dictFind_update,
      if_neg (hne ":source-address" (by decide) ":protocol" (by decide) (by decide)),
      dictFind_update,
      if_neg (hne ":source-address" (by decide) ":destination-port" (by decide) (by decide)),
      dictFind_update,
      if_neg (hne ":source-address" (by decide) ":source_port" (by decide) (by decide)),
      dictFind_update,
      if_neg (hne ":source-address" (by decide) ":destination-address" (by decide) (by decide)),
      dictFind_update, if_pos rfl]
  · rw [dictFind_update,
      if_neg (hne ":destination-address" (by decide) ":byte-count" (by decide) (by decide)),
      dictFind_update,
      if_neg (hne ":destination-address" (by decide) ":protocol" (by decide) (by decide)),
      dictFind_update,
      if_neg (hne ":destination-address" (by decide) ":destination-port" (by decide) (by decide)),
      dictFind_update,
      if_neg (hne ":destination-address" (by decide) ":source_port" (by decide) (by decide)),
      dictFind_update, if_pos rfl]
  · rw [dictFind_update,
      if_neg (hne ":source_port" (by decide) ":byte-count" (by decide) (by decide)),
      dictFind_update,
      if_neg (hne ":source_port" (by decide) ":protocol" (by decide) (by decide)),
      dictFind_update,
      if_neg (hne ":source_port" (by decide) ":destination-port" (by decide) (by decide)),
      dictFind_update, if_pos rfl]
  · rw [dictFind_update,
      if_neg (hne ":destination-port" (by decide) ":byte-count" (by decide) (by decide)),
      dictFind_update,
      if_neg (hne ":destination-port" (by decide) ":protocol" (by decide) (by decide)),
      dictFind_update, if_pos rfl]
  · rw [dictFind_update,
      if_neg (hne ":protocol" (by decide) ":byte-count" (by decide) (by decide)),
      dictFind_update, if_pos rfl]
  · rw [dictFind_update, if_pos rfl]

theorem mergeFlow_isSome_mono {r r₁ : SessionRecord} {f : RawFlow}
    (hm : mergeFlow r f = .ok r₁) (k : String) (hs : (dictFind r k).isSome) :
    (dictFind r₁ k).isSome := by
  obtain ⟨d, sa, da, sp, dp, pro, bc, _, _, _, _, _, _, _, hr⟩ := mergeFlow_ok_elim hm
  subst hr
  exact dictFind_update_isSome_mono _ _ _ _ (dictFind_update_isSome_mono _ _ _ _
    (dictFind_update_isSome_mono _ _ _ _ (dictFind_update_isSome_mono _ _ _ _
    (dictFind_update_isSome_mono _ _ _ _ (dictFind_update_isSome_mono _ _ _ _ hs)))))

theorem mergeFlow_key_shape {r r₁ : SessionRecord} {f : RawFlow} {k : String}
    (hm : mergeFlow r f = .ok r₁) (hs : (dictFind r₁ k).isSome) :
    (dictFind r k).isSome ∨
      ∃ d, f.direction = some (some d) ∧ ∃ t ∈ realTails, k = d ++ t := by
  obtain ⟨d, sa, da, sp, dp, pro, bc, hd, _, _, _, _, _, _, hr⟩ := mergeFlow_ok_elim hm
  subst hr
  simp only [dictFind_update] at hs
  split_ifs at hs with h1 h2 h3 h4 h5 h6
  · exact Or.inr ⟨d, hd, ":byte-count", by decide, h1⟩
  · exact Or.inr ⟨d, hd, ":protocol", by decide, h2⟩
  · exact Or.inr ⟨d, hd, ":destination-port", by decide, h3⟩
  · exact Or.inr ⟨d, hd, ":source_port", by decide, h4⟩
  · exact Or.inr ⟨d, hd, ":destination-address", by decide, h5⟩
  · exact Or.inr ⟨d, hd, ":source-address", by decide, h6⟩
  · exact Or.inl hs

theorem mergeFlows_append (r : SessionRecord) (l₁ l₂ : List RawFlow) :
    mergeFlows r (l₁ ++ l₂) =
      match mergeFlows r l₁ with
      | .error e => .error e
      | .ok r₁ => mergeFlows r₁ l₂ := by
  induction l₁ generalizing r with
  | nil => simp [mergeFlows]
  | cons f l ih =>
    simp only [List.cons_append, mergeFlows]
    cases mergeFlow r f with
    | error e => rfl
    | ok r₁ => exact ih r₁

theorem mergeFlows_isSome_mono {fl : List RawFlow} {r r' : SessionRecord}
    (h : mergeFlows r fl = .ok r') (k : String) (hs : (dictFind r k).isSome) :
    (dictFind r' k).isSome := by
  induction fl generalizing r with
  | nil =>
    simp only [mergeFlows] at h
    exact (Except.ok.inj h) ▸ hs
  | cons f fl ih =>
    simp only [mergeFlows] at h
    cases hm : mergeFlow r f with
    | error e => rw [hm] at h; cases h
    | ok r₁ =>
      rw [hm] at h
      exact ih h (mergeFlow_isSome_mono hm k hs)

theorem mergeFlows_dictFind_no_dir {fl : List RawFlow} {r r' : SessionRecord} {d : String}
    (h : mergeFlows r fl = .ok r') (hd : ∀ f ∈ fl, f.direction ≠ some (some d))
    {t : String} (ht : t ∈ realTails) :
    dictFind r' (d ++ t) = dictFind r (d ++ t) := by
  induction fl generalizing r with
  | nil =>
    simp only [mergeFlows] at h
    exact (Except.ok.inj h) ▸ rfl
  | cons f fl ih =>
    simp only [mergeFlows] at h
    cases hm : mergeFlow r f with
    | error e => rw [hm] at h; cases h
    | ok r₁ =>
      rw [hm] at h
      have step : dictFind r₁ (d ++ t) = dictFind r (d ++ t) := by
        apply mergeFlow_dictFind_other hm
        intro d' hd' t' ht' heq
        by_cases htt : t = t'
        · subst htt
          exact hd f (List.mem_cons_self f fl) ((append_tail_cancel heq) ▸ hd')
        · exact dirKey_ne_dirKey (realTails_subset ht) (realTails_subset ht') htt d d' heq
      rw [ih h (fun g hg => hd g (List.mem_cons_of_mem f hg)), step]

theorem mergeFlows_dictFind_no_colon {fl : List RawFlow} {r r' : SessionRecord} {k : String}
    (h : mergeFlows r fl = .ok r') (hk : ':' ∉ k.data) :
    dictFind r' k = dictFind r k := by
  induction fl generalizing r with
  | nil =>
    simp only [mergeFlows] at h
    exact (Except.ok.inj h) ▸ rfl
  | cons f fl ih =>
    simp only [mergeFlows] at h
    cases hm : mergeFlow r f with
    | error e => rw [hm] at h; cases h
    | ok r₁ =>
      rw [hm] at h
      have step : dictFind r₁ k = dictFind r k := by
        apply mergeFlow_dictFind_other hm
        intro d' _ t' ht' heq
        exact append_colon_ne (tails_colon t' (realTails_subset ht')) hk d' heq.symm
      rw [ih h, step]

theorem mergeFlows_key_shape {fl : List RawFlow} {r r' : SessionRecord} {k : String}
    (h : mergeFlows r fl = .ok r') (hs : (dictFind r' k).isSome) :
    (dictFind r k).isSome ∨
      ∃ f ∈ fl, ∃ d, f.direction = some (some d) ∧ ∃ t ∈ realTails, k = d ++ t := by
  induction fl generalizing r with
  | nil =>
    simp only [mergeFlows] at h
    exact Or.inl ((Except.ok.inj h) ▸ hs)
  | cons f fl ih =>
    simp only [mergeFlows] at h
    cases hm : mergeFlow r f with
    | error e => rw [hm] at h; cases h
    | ok r₁ =>
      rw [hm] at h
      rcases ih h with h1 | ⟨g, hg, hrest⟩
      · rcases mergeFlow_key_shape hm h1 with h2 | ⟨d, hd, hts⟩
        · exact Or.inl h2
        · exact Or.inr ⟨f, List.mem_cons_self f fl, d, hd, hts⟩
      · exact Or.inr ⟨g, List.mem_cons_of_mem f hg, hrest⟩

theorem mergeFlows_dir_present {fl : List RawFlow} {r r' : SessionRecord} {d : String}
    (h : mergeFlows r fl = .ok r') {f : RawFlow} (hf : f ∈ fl)
    (hd : f.direction = some (some d)) :
    ∀ t ∈ realTails, (dictFind r' (d ++ t)).isSome := by
  obtain ⟨pre, post, rfl⟩ := List.append_of_mem hf
  rw [mergeFlows_append] at h
  cases hpre : mergeFlows r pre with
  | error e => rw [hpre] at h; cases h
  | ok r₁ =>
    rw [hpre] at h
    simp only [mergeFlows] at h
    cases hm : mergeFlow r₁ f with
    | error e => rw [hm] at h; cases h
    | ok r₂ =>
      rw [hm] at h
      intro t ht
      have hself := mergeFlow_dictFind_self hm hd
      have hpres : (dictFind r₂ (d ++ t)).isSome := by
        have ht' := ht
        simp only [realTails, List.mem_cons, List.not_mem_nil, or_false] at ht'
        rcases ht' with rfl | rfl | rfl | rfl | rfl | rfl
        · obtain ⟨v, _, hv⟩ := hself.1
          simp [hv]
        · obtain ⟨v, _, hv⟩ := hself.2.1
          simp [hv]
        · obtain ⟨v, _, hv⟩ := hself.2.2.1
          simp [hv]
        · obtain ⟨v, _, hv⟩ := hself.2.2.2.1
          simp [hv]
        · obtain ⟨v, _, hv⟩ := hself.2.2.2.2.1
          simp [hv]
        · obtain ⟨v, _, hv⟩ := hself.2.2.2.2.2
          simp [hv]
      exact mergeFlows_isSome_mono h _ hpres

/-! ### Record-construction lemmas -/

theorem buildRecord_ok_elim {s : RawSession} {r : SessionRecord}
    (h : buildRecord s = .ok r) :
    ∃ sid sst pol tmo stt dur cto,
      s.session_identifier = some sid ∧ s.session_state = some sst ∧
      s.policy = some pol ∧ s.timeout = some tmo ∧ s.start_time = some stt ∧
      s.duration = some dur ∧ s.configured_timeout = some cto ∧
      mergeFlows (baseDict sid sst pol tmo stt dur cto) s.flows = .ok r := by
  unfold buildRecord at h
  rcases h1 : s.session_identifier with _ | sid
  · rw [h1] at h
    simp [textOf] at h
  rw [h1] at h
  simp only [textOf] at h
  rcases h2 : s.session_state with _ | sst
  · rw [h2] at h
    simp [textOf] at h
  rw [h2] at h
  simp only [textOf] at h
  rcases h3 : s.policy with _ | pol
  · rw [h3] at h
    simp [textOf] at h
  rw [h3] at h
  simp only [textOf] at h
  rcases h4 : s.timeout with _ | tmo
  · rw [h4] at h
    simp [textOf] at h
  rw [h4] at h
  simp only [textOf] at h
  rcases h5 : s.start_time with _ | stt
  · rw [h5] at h
    simp [textOf] at h
  rw [h5] at h
  simp only [textOf] at h
  rcases h6 : s.duration with _ | dur
  · rw [h6] at h
    simp [textOf] at h
  rw [h6] at h
  simp only [textOf] at h
  rcases h7 : s.configured_timeout with _ | cto
  · rw [h7] at h
    simp [textOf] at h
  rw [h7] at h
  simp only [textOf] at h
  exact ⟨sid, sst, pol, tmo, stt, dur, cto, rfl, rfl, rfl, rfl, rfl, rfl, rfl, h⟩

theorem buildRecord_error_of_missing {s : RawSession}
    (hmiss : s.session_identifier = none ∨ s.session_state = none ∨ s.policy = none ∨
      s.timeout = none ∨ s.start_time = none ∨ s.duration = none ∨
      s.configured_timeout = none) :
    ∀ r, buildRecord s ≠ .ok r := by
  intro r h
  obtain ⟨sid, sst, pol, tmo, stt, dur, cto, h1, h2, h3, h4, h5, h6, h7, _⟩ :=
    buildRecord_ok_elim h
  rcases hmiss with hm | hm | hm | hm | hm | hm | hm <;> simp_all

theorem get_session_ok_filter {ss : List RawSession} {l : List SessionRecord}
    (h : get_session ss = .ok l) :
    l = (ss.filter (fun s => sessionActive s)).map recordD := by
  induction ss generalizing l with
  | nil =>
    simp only [get_session] at h
    rw [← Except.ok.inj h]
    simp
  | cons s rest ih =>
    simp only [get_session] at h
    cases hb : buildRecord s with
    | error e => rw [hb] at h; cases h
    | ok r =>
      rw [hb] at h
      cases ht : get_session rest with
      | error e => rw [ht] at h; cases h
      | ok tail =>
        rw [ht] at h
        have hl := Except.ok.inj h
        by_cases ha : sessionActive s
        · rw [← hl]
          simp only [ha, if_true, List.filter_cons, List.map_cons]
          rw [ih ht]
          simp [recordD, hb, Except.toOption]
        · rw [← hl]
          simp only [ha, if_false, List.filter_cons]
          simp only [Bool.not_eq_true] at ha
          rw [ih ht]
          simp [ha]

theorem get_session_mem_src {ss : List RawSession} {l : List SessionRecord}
    (h : get_session ss = .ok l) {r : SessionRecord} (hr : r ∈ l) :
    ∃ s ∈ ss, sessionActive s = true ∧ buildRecord s = .ok r := by
  induction ss generalizing l with
  | nil =>
    simp only [get_session] at h
    rw [← Except.ok.inj h] at hr
    cases hr
  | cons s rest ih =>
    simp only [get_session] at h
    cases hb : buildRecord s with
    | error e => rw [hb] at h; cases h
    | ok r₀ =>
      rw [hb] at h
      cases ht : get_session rest with
      | error e => rw [ht] at h; cases h
      | ok tail =>
        rw [ht] at h
        have hl := Except.ok.inj h
        rw [← hl] at hr
        by_cases ha : sessionActive s
        · rw [if_pos ha] at hr
          rcases List.mem_cons.mp hr with rfl | hmem
          · exact ⟨s, List.mem_cons_self s rest, ha, hb⟩
          · obtain ⟨s', hs', hact, hbr⟩ := ih ht hmem
            exact ⟨s', List.mem_cons_of_mem s hs', hact, hbr⟩
        · rw [if_neg ha] at hr
          obtain ⟨s', hs', hact, hbr⟩ := ih ht hr
          exact ⟨s', List.mem_cons_of_mem s hs', hact, hbr⟩

theorem get_session_error_of_bad {ss : List RawSession} {s : RawSession}
    (hs : s ∈ ss) (hbad : ∀ r, buildRecord s ≠ .ok r) :
    ∃ e, get_session ss = .error e := by
  induction ss with
  | nil => cases hs
  | cons a rest ih =>
    rcases List.mem_cons.mp hs with rfl | hmem
    · cases hb : buildRecord s with
      | error e => exact ⟨e, by simp [get_session, hb]⟩
      | ok r => exact absurd hb (hbad r)
    · cases hb : buildRecord a with
      | error e => exact ⟨e, by simp [get_session, hb]⟩
      | ok r =>
        obtain ⟨e, he⟩ := ih hmem
        exact ⟨e, by simp [get_session, hb, he]⟩

/-! ### Base-dict facts -/

theorem baseDict_keys (sid sst pol tmo stt dur cto : Option String) :
    (baseDict sid sst pol tmo stt dur cto).map Prod.fst = baseKeys := rfl

theorem baseDict_find_sid (sid sst pol tmo stt dur cto : Option String) :
    dictFind (baseDict sid sst pol tmo stt dur cto) "session-id" = some sid := rfl

theorem baseDict_find_sst (sid sst pol tmo stt dur cto : Option String) :
    dictFind (baseDict sid sst pol tmo stt dur cto) "session-state" = some sst := rfl

theorem baseDict_find_pol (sid sst pol tmo stt dur cto : Option String) :
    dictFind (baseDict sid sst pol tmo stt dur cto) "policy" = some pol := rfl

theorem baseDict_find_tmo (sid sst pol tmo stt dur cto : Option String) :
    dictFind (baseDict sid sst pol tmo stt dur cto) "timeout" = some tmo := rfl

theorem baseDict_find_stt (sid sst pol tmo stt dur cto : Option String) :
    dictFind (baseDict sid sst pol tmo stt dur cto) "start-time" = some stt := rfl

theorem baseDict_find_dur (sid sst pol tmo stt dur cto : Option String) :
    dictFind (baseDict sid sst pol tmo stt dur cto) "duration" = some dur := rfl

theorem baseDict_find_cto (sid sst pol tmo stt dur cto : Option String) :
    dictFind (baseDict sid sst pol tmo stt dur cto) "configured-timeout" = some cto := rfl

theorem baseDict_find_not_base {k : String} (hk : k ∉ baseKeys)
    (sid sst pol tmo stt dur cto : Option String) :
    dictFind (baseDict sid sst pol tmo stt dur cto) k = none := by
  simp only [baseKeys, List.mem_cons, List.not_mem_nil, or_false, not_or] at hk
  obtain ⟨n1, n2, n3, n4, n5, n6, n7⟩ := hk
  have m1 : ¬ (("session-id" : String) = k) := fun h => n1 h.symm
  have m2 : ¬ (("session-state" : String) = k) := fun h => n2 h.symm
  have m3 : ¬ (("policy" : String) = k) := fun h => n3 h.symm
  have m4 : ¬ (("timeout" : String) = k) := fun h => n4 h.symm
  have m5 : ¬ (("start-time" : String) = k) := fun h => n5 h.symm
  have m6 : ¬ (("duration" : String) = k) := fun h => n6 h.symm
  have m7 : ¬ (("configured-timeout" : String) = k) := fun h => n7 h.symm
  simp [dictFind, baseDict, m1, m2, m3, m4, m5, m6, m7]

theorem baseDict_nodup (sid sst pol tmo stt dur cto : Option String) :
    ((baseDict sid sst pol tmo stt dur cto).map Prod.fst).Nodup := by
  rw [baseDict_keys]
  decide

/-! ### Key-set and value invariants through the merges -/

theorem mergeFlow_nodup {r r₁ : SessionRecord} {f : RawFlow}
    (hm : mergeFlow r f = .ok r₁) (h : (r.map Prod.fst).Nodup) :
    (r₁.map Prod.fst).Nodup := by
  obtain ⟨d, sa, da, sp, dp, pro, bc, _, _, _, _, _, _, _, hr⟩ := mergeFlow_ok_elim hm
  subst hr
  exact dictUpdate1_nodup _ _ _ (dictUpdate1_nodup _ _ _ (dictUpdate1_nodup _ _ _
    (dictUpdate1_nodup _ _ _ (dictUpdate1_nodup _ _ _ (dictUpdate1_nodup _ _ _ h)))))

theorem mergeFlows_nodup {fl : List RawFlow} {r r' : SessionRecord}
    (h : mergeFlows r fl = .ok r') (hn : (r.map Prod.fst).Nodup) :
    (r'.map Prod.fst).Nodup := by
  induction fl generalizing r with
  | nil =>
    simp only [mergeFlows] at h
    exact (Except.ok.inj h) ▸ hn
  | cons f fl ih =>
    simp only [mergeFlows] at h
    cases hm : mergeFlow r f with
    | error e => rw [hm] at h; cases h
    | ok r₁ =>
      rw [hm] at h
      exact ih h (mergeFlow_nodup hm hn)

theorem dictUpdate1_valOk {r : SessionRecord} {k : String} {v : Option String}
    (hr : ∀ k' v', dictFind r k' = some v' → valOk v') (hv : valOk v) :
    ∀ k' v', dictFind (dictUpdate1 r k v) k' = some v' → valOk v' := by
  intro k' v' h
  rw [dictFind_update] at h
  by_cases hk : k' = k
  · rw [if_pos hk] at h
    exact (Option.some.inj h) ▸ hv
  · rw [if_neg hk] at h
    exact hr k' v' h

theorem mergeFlow_valOk {r r₁ : SessionRecord} {f : RawFlow}
    (hm : mergeFlow r f = .ok r₁) (hf : flowTextsOk f)
    (hr : ∀ k' v', dictFind r k' = some v' → valOk v') :
    ∀ k' v', dictFind r₁ k' = some v' → valOk v' := by
  obtain ⟨d, sa, da, sp, dp, pro, bc, _, hsa, hda, hsp, hdp, hpro, hbc, hrr⟩ :=
    mergeFlow_ok_elim hm
  subst hrr
  obtain ⟨⟨t1, e1, g1⟩, ⟨t2, e2, g2⟩, ⟨t3, e3, g3⟩, ⟨t4, e4, g4⟩, ⟨t5, e5, g5⟩,
    ⟨t6, e6, g6⟩⟩ := hf
  have v1 : valOk sa := ⟨t1, Option.some.inj (hsa ▸ e1), g1⟩
  have v2 : valOk da := ⟨t2, Option.some.inj (hda ▸ e2), g2⟩
  have v3 : valOk sp := ⟨t3, Option.some.inj (hsp ▸ e3), g3⟩
  have v4 : valOk dp := ⟨t4, Option.some.inj (hdp ▸ e4), g4⟩
  have v5 : valOk pro := ⟨t5, Option.some.inj (hpro ▸ e5), g5⟩
  have v6 : valOk bc := ⟨t6, Option.some.inj (hbc ▸ e6), g6⟩
  exact dictUpdate1_valOk (dictUpdate1_valOk (dictUpdate1_valOk (dictUpdate1_valOk
    (dictUpdate1_valOk (dictUpdate1_valOk hr v1) v2) v3) v4) v5) v6

theorem mergeFlows_valOk {fl : List RawFlow} {r r' : SessionRecord}
    (h : mergeFlows r fl = .ok r') (hfl : ∀ f ∈ fl, flowTextsOk f)
    (hr : ∀ k' v', dictFind r k' = some v' → valOk v') :
    ∀ k' v', dictFind r' k' = some v' → valOk v' := by
  induction fl generalizing r with
  | nil =>
    simp only [mergeFlows] at h
    exact (Except.ok.inj h) ▸ hr
  | cons f fl ih =>
    simp only [mergeFlows] at h
    cases hm : mergeFlow r f with
    | error e => rw [hm] at h; cases h
    | ok r₁ =>
      rw [hm] at h
      exact ih h (fun g hg => hfl g (List.mem_cons_of_mem f hg))
        (mergeFlow_valOk hm (hfl f (List.mem_cons_self f fl)) hr)

theorem mergeFlows_last_dir {r r' : SessionRecord} {g : RawFlow}
    {post : List RawFlow} {d : String}
    (h : mergeFlows r (g :: post) = .ok r') (hg : g.direction = some (some d))
    (hpost : ∀ f ∈ post, f.direction ≠ some (some d)) :
    (∃ v, g.source_address = some v ∧ dictFind r' (d ++ ":source-address") = some v) ∧
    (∃ v, g.destination_address = some v ∧
      dictFind r' (d ++ ":destination-address") = some v) ∧
    (∃ v, g.source_port = some v ∧ dictFind r' (d ++ ":source_port") = some v) ∧
    (∃ v, g.destination_port = some v ∧
      dictFind r' (d ++ ":destination-port") = some v) ∧
    (∃ v, g.protocol = some v ∧ dictFind r' (d ++ ":protocol") = some v) ∧
    (∃ v, g.byte_cnt = some v ∧ dictFind r' (d ++ ":byte-count") = some v) := by
  simp only [mergeFlows] at h
  cases hm : mergeFlow r g with
  | error e => rw [hm] at h; cases h
  | ok r₂ =>
    rw [hm] at h
    have hself := mergeFlow_dictFind_self hm hg
    have htrans : ∀ t ∈ realTails, dictFind r' (d ++ t) = dictFind r₂ (d ++ t) :=
      fun t ht => mergeFlows_dictFind_no_dir h hpost ht
    obtain ⟨⟨v1, a1, b1⟩, ⟨v2, a2, b2⟩, ⟨v3, a3, b3⟩, ⟨v4, a4, b4⟩,
      ⟨v5, a5, b5⟩, ⟨v6, a6, b6⟩⟩ := hself
    exact ⟨⟨v1, a1, (htrans ":source-address" (by decide)).trans b1⟩,
      ⟨v2, a2, (htrans ":destination-address" (by decide)).trans b2⟩,
      ⟨v3, a3, (htrans ":source_port" (by decide)).trans b3⟩,
      ⟨v4, a4, (htrans ":destination-port" (by decide)).trans b4⟩,
      ⟨v5, a5, (htrans ":protocol" (by decide)).trans b5⟩,
      ⟨v6, a6, (htrans ":byte-count" (by decide)).trans b6⟩⟩

theorem buildRecord_no_in_flow {s : RawSession} {r : SessionRecord}
    (h : buildRecord s = .ok r)
    (hno : ∀ f ∈ s.flows, f.direction ≠ some (some "In")) :
    pyGet r "In:byte-count" = none := by
  obtain ⟨sid, sst, pol, tmo, stt, dur, cto, _, _, _, _, _, _, _, hm⟩ :=
    buildRecord_ok_elim h
  have hkey : ("In" : String) ++ ":byte-count" = "In:byte-count" := rfl
  have h1 : dictFind r "In:byte-count"
      = dictFind (baseDict sid sst pol tmo stt dur cto) "In:byte-count" := by
    rw [← hkey]
    exact mergeFlows_dictFind_no_dir hm hno (by decide)
  have h2 : dictFind (baseDict sid sst pol tmo stt dur cto) "In:byte-count" = none :=
    baseDict_find_not_base (by decide) sid sst pol tmo stt dur cto
  unfold pyGet
  rw [h1, h2]
  rfl

theorem buildRecord_keys_inout {s : RawSession} {r : SessionRecord}
    (h : buildRecord s = .ok r)
    (hdirs : ∀ f ∈ s.flows,
      f.direction = some (some "In") ∨ f.direction = some (some "Out"))
    (hin : ∃ f ∈ s.flows, f.direction = some (some "In"))
    (hout : ∃ f ∈ s.flows, f.direction = some (some "Out")) :
    (∀ k, (dictFind r k).isSome ↔ k ∈ keys19) ∧
      (r.map Prod.fst).Nodup ∧ r.length = 19 := by
  obtain ⟨sid, sst, pol, tmo, stt, dur, cto, _, _, _, _, _, _, _, hm⟩ :=
    buildRecord_ok_elim h
  have hbase : ∀ b ∈ baseKeys, b ∈ keys19 := by decide
  have hiff : ∀ k, (dictFind r k).isSome ↔ k ∈ keys19 := by
    intro k
    constructor
    · intro hk
      rcases mergeFlows_key_shape hm hk with hb | ⟨f, hf, d, hd, t, ht, rfl⟩
      · rw [dictFind_isSome_iff_mem, baseDict_keys] at hb
        exact hbase k hb
      · rcases hdirs f hf with hdi | hdo
        · rw [hdi] at hd
          have hdd : d = "In" := (Option.some.inj (Option.some.inj hd)).symm
          subst hdd
          simp only [realTails, List.mem_cons, List.not_mem_nil, or_false] at ht
          rcases ht with rfl | rfl | rfl | rfl | rfl | rfl <;> decide
        · rw [hdo] at hd
          have hdd : d = "Out" := (Option.some.inj (Option.some.inj hd)).symm
          subst hdd
          simp only [realTails, List.mem_cons, List.not_mem_nil, or_false] at ht
          rcases ht with rfl | rfl | rfl | rfl | rfl | rfl <;> decide
    · intro hk
      obtain ⟨fIn, hfIn, hdIn⟩ := hin
      obtain ⟨fOut, hfOut, hdOut⟩ := hout
      have hInPres := mergeFlows_dir_present hm hfIn hdIn
      have hOutPres := mergeFlows_dir_present hm hfOut hdOut
      have hbasePres : ∀ b ∈ baseKeys, (dictFind r b).isSome := by
        intro b hb
        have hcol : ':' ∉ b.data := baseKeys_no_colon b hb
        rw [mergeFlows_dictFind_no_colon hm hcol]
        simp only [baseKeys, List.mem_cons, List.not_mem_nil, or_false] at hb
        rcases hb with rfl | rfl | rfl | rfl | rfl | rfl | rfl
        · rw [baseDict_find_sid]
          rfl
        · rw [baseDict_find_sst]
          rfl
        · rw [baseDict_find_pol]
          rfl
        · rw [baseDict_find_tmo]
          rfl
        · rw [baseDict_find_stt]
          rfl
        · rw [baseDict_find_dur]
          rfl
        · rw [baseDict_find_cto]
          rfl
      simp only [keys19, List.mem_cons, List.not_mem_nil, or_false] at hk
      rcases hk with rfl | rfl | rfl | rfl | rfl | rfl | rfl | rfl | rfl | rfl |
        rfl | rfl | rfl | rfl | rfl | rfl | rfl | rfl | rfl
      · exact hbasePres "session-id" (by decide)
      · exact hbasePres "session-state" (by decide)
      · exact hbasePres "policy" (by decide)
      · exact hbasePres "timeout" (by decide)
      · exact hbasePres "start-time" (by decide)
      · exact hbasePres "duration" (by decide)
      · exact hbasePres "configured-timeout" (by decide)
      · exact hInPres ":source-address" (by decide)
      · exact hInPres ":destination-address" (by decide)
      · exact hInPres ":source_port" (by decide)
      · exact hInPres ":destination-port" (by decide)
      · exact hInPres ":protocol" (by decide)
      · exact hInPres ":byte-count" (by decide)
      · exact hOutPres ":source-address" (by decide)
      · exact hOutPres ":destination-address" (by decide)
      · exact hOutPres ":source_port" (by decide)
      · exact hOutPres ":destination-port" (by decide)
      · exact hOutPres ":protocol" (by decide)
      · exact hOutPres ":byte-count" (by decide)
  have hnod : (r.map Prod.fst).Nodup := mergeFlows_nodup hm (baseDict_nodup _ _ _ _ _ _ _)
  refine ⟨hiff, hnod, ?_⟩
  have hmemiff : ∀ k, k ∈ r.map Prod.fst ↔ k ∈ keys19 := by
    intro k
    rw [← dictFind_isSome_iff_mem]
    exact hiff k
  have hperm : (r.map Prod.fst).Perm keys19 :=
    (List.perm_ext_iff_of_nodup hnod (by decide)).mpr hmemiff
  have hlen : (r.map Prod.fst).length = keys19.length := hperm.length_eq
  rw [List.length_map] at hlen
  rw [hlen]
  rfl

/-! ### Claim theorems -/

/-- C1: In monitoring mode, for a non-empty SessionList whose first record
carries the five looked-up fields, the evaluator uses exactly the first
record (whatever follows it) and emits the single line
`SESSION OK - Session ID <id> | bytes_in=<In:byte-count>;bytes_out=<Out:byte-count>;configured_timeout=<configured-timeout>;timeout=<timeout>;;`
with the five values copied verbatim, ending the process with status 0. -/
theorem c1_ok_line_first_record (r : SessionRecord) (rest : List SessionRecord)
    (i bi bo ct tm : String)
    (h1 : pyGet r "session-id" = some i)
    (h2 : pyGet r "In:byte-count" = some bi)
    (h3 : pyGet r "Out:byte-count" = some bo)
    (h4 : pyGet r "configured-timeout" = some ct)
    (h5 : pyGet r "timeout" = some tm) :
    mainNagios (r :: rest) = .ok ("SESSION OK - Session ID " ++ i ++
      " | bytes_in=" ++ bi ++ ";bytes_out=" ++ bo ++ ";configured_timeout=" ++
      ct ++ ";timeout=" ++ tm ++ ";;", 0) := by
  have hok : okLine r = .ok ("SESSION OK - Session ID " ++ i ++ " | bytes_in=" ++
      bi ++ ";bytes_out=" ++ bo ++ ";configured_timeout=" ++ ct ++ ";timeout=" ++
      tm ++ ";;") := by
    unfold okLine
    rw [h1, h2, h3, h4, h5]
    rfl
  show (match okLine r with
    | Except.error e => Except.error e
    | Except.ok line => Except.ok (line, 0)) = _
  rw [hok]

/-- Witness for C1: the spec's own example values yield exactly the line the
claim displays. -/
theorem c1_ok_line_first_record_witness :
    mainNagios [[("session-id", some "31432"), ("In:byte-count", some "17515"),
      ("Out:byte-count", some "4786"), ("configured-timeout", some "43200"),
      ("timeout", some "43094")]]
    = .ok ("SESSION OK - Session ID 31432 | bytes_in=17515;bytes_out=4786;configured_timeout=43200;timeout=43094;;", 0) :=
  c1_ok_line_first_record _ [] "31432" "17515" "4786" "43200" "43094"
    rfl rfl rfl rfl rfl

/-- C2 evidence: on an empty SessionList the monitoring branch does print
exactly `SESSION CRITICAL`, but `main` then falls off its end, so the process
exits with status 0 - the same status as the OK branch, not a distinguishable
non-zero one as the claim requires. -/
theorem c2_critical_exit_zero : mainNagios [] = .ok ("SESSION CRITICAL", 0) := rfl

/-- C4: if any session node of the batch is missing one of the seven required
base children (e.g. `policy`), the whole extraction raises instead of
returning a list: no partial SessionList exists for any session of the
batch. -/
theorem c4_missing_base_fails (ss : List RawSession) (s : RawSession)
    (hs : s ∈ ss)
    (hmiss : s.session_identifier = none ∨ s.session_state = none ∨
      s.policy = none ∨ s.timeout = none ∨ s.start_time = none ∨
      s.duration = none ∨ s.configured_timeout = none) :
    ∃ e, get_session ss = .error e :=
  get_session_error_of_bad hs (buildRecord_error_of_missing hmiss)

/-- Witness for C4: a healthy session followed by one missing `policy` makes
the whole extraction fail. -/
theorem c4_missing_base_fails_witness : ∃ e, get_session [sA, sNoPol] = .error e :=
  c4_missing_base_fails [sA, sNoPol] sNoPol
    (List.mem_cons_of_mem sA (List.mem_cons_self sNoPol []))
    (Or.inr (Or.inr (Or.inl rfl)))

/-- C7: a successful extraction returns exactly the records of the retained
(active) sessions, in the input's per-session order - a map over a filter of
the input, hence no reordering, no insertion and no duplication. -/
theorem c7_order_preserved (ss : List RawSession) (l : List SessionRecord)
    (h : get_session ss = .ok l) :
    l = (ss.filter (fun s => sessionActive s)).map recordD :=
  get_session_ok_filter h

/-- Witness for C7: an active session followed by a backup session yields
just the active session's record. -/
theorem c7_order_preserved_witness :
    [recA] = ([sA, sB].filter (fun s => sessionActive s)).map recordD :=
  c7_order_preserved [sA, sB] [recA] rfl

/-- C10: the flow merges never disturb the seven base fields: after a
successful build, each base key still holds exactly the text read from the
session node's scalar child (every flow-derived key contains a `:` while no
base key does). -/
theorem c10_flows_preserve_base (s : RawSession) (r : SessionRecord)
    (h : buildRecord s = .ok r) :
    (∃ t, s.session_identifier = some t ∧ dictFind r "session-id" = some t) ∧
    (∃ t, s.session_state = some t ∧ dictFind r "session-state" = some t) ∧
    (∃ t, s.policy = some t ∧ dictFind r "policy" = some t) ∧
    (∃ t, s.timeout = some t ∧ dictFind r "timeout" = some t) ∧
    (∃ t, s.start_time = some t ∧ dictFind r "start-time" = some t) ∧
    (∃ t, s.duration = some t ∧ dictFind r "duration" = some t) ∧
    (∃ t, s.configured_timeout = some t ∧
      dictFind r "configured-timeout" = some t) := by
  obtain ⟨sid, sst, pol, tmo, stt, dur, cto, e1, e2, e3, e4, e5, e6, e7, hm⟩ :=
    buildRecord_ok_elim h
  have hb : ∀ k : String, ':' ∉ k.data →
      dictFind r k = dictFind (baseDict sid sst pol tmo stt dur cto) k :=
    fun k hk => mergeFlows_dictFind_no_colon hm hk
  refine ⟨⟨sid, e1, ?_⟩, ⟨sst, e2, ?_⟩, ⟨pol, e3, ?_⟩, ⟨tmo, e4, ?_⟩,
    ⟨stt, e5, ?_⟩, ⟨dur, e6, ?_⟩, ⟨cto, e7, ?_⟩⟩
  · rw [hb "session-id" (by decide), baseDict_find_sid]
  · rw [hb "session-state" (by decide), baseDict_find_sst]
  · rw [hb "policy" (by decide), baseDict_find_pol]
  · rw [hb "timeout" (by decide), baseDict_find_tmo]
  · rw [hb "start-time" (by decide), baseDict_find_stt]
  · rw [hb "duration" (by decide), baseDict_find_dur]
  · rw [hb "configured-timeout" (by decide), baseDict_find_cto]

/-- Witness for C10: in the two-wing session `sC` the base fields of the
extracted record equal the node's scalar texts. -/
theorem c10_flows_preserve_base_witness :
    ∃ t, sC.policy = some t ∧ dictFind recC "policy" = some t :=
  (c10_flows_preserve_base sC recC rfl).2.2.1

/-- C3: on a successful extraction every returned record stems from a session
whose `session-state` text is exactly `Active`, so non-active sessions are
excluded however well-formed their flows are; and the state check only runs
after the whole record (flow merges included) is assembled, so a non-active
session with a malformed flow still aborts the extraction instead of being
skipped early. -/
theorem c3_inactive_excluded :
    (∀ (ss : List RawSession) (l : List SessionRecord), get_session ss = .ok l →
      ∀ r ∈ l, ∃ s ∈ ss, sessionActive s = true ∧ buildRecord s = .ok r) ∧
    (∀ (ss : List RawSession) (s : RawSession), s ∈ ss →
      sessionActive s = false → (∀ r, buildRecord s ≠ .ok r) →
      ∃ e, get_session ss = .error e) := by
  constructor
  · intro ss l h r hr
    exact get_session_mem_src h hr
  · intro ss s hs _ hbad
    exact get_session_error_of_bad hs hbad

/-- Witness for C3: the only record of `get_session [sA, sB]` comes from the
active `sA`, and the backup session `sBad` with a malformed flow aborts the
extraction it appears in. -/
theorem c3_inactive_excluded_witness :
    (∃ s ∈ [sA, sB], sessionActive s = true ∧ buildRecord s = .ok recA) ∧
    (∃ e, get_session [sBad] = .error e) :=
  ⟨c3_inactive_excluded.1 [sA, sB] [recA] rfl recA (List.mem_cons_self recA []),
   c3_inactive_excluded.2 [sBad] sBad (List.mem_cons_self sBad []) rfl
     (fun r h => by
       rw [show buildRecord sBad = Except.error PyError.attributeError from rfl] at h
       cases h)⟩

/-- C5: when the same direction label occurs on several flow nodes of one
session, each of the six directional fields of the final record holds the
value of the last occurrence (last-write-wins per field). -/
theorem c5_last_write_wins (s : RawSession) (r : SessionRecord) (d : String)
    (pre post : List RawFlow) (g : RawFlow)
    (h : buildRecord s = .ok r)
    (hflows : s.flows = pre ++ g :: post)
    (_hdup : ∃ f ∈ pre, f.direction = some (some d))
    (hg : g.direction = some (some d))
    (hpost : ∀ f ∈ post, f.direction ≠ some (some d)) :
    (∃ v, g.source_address = some v ∧ dictFind r (d ++ ":source-address") = some v) ∧
    (∃ v, g.destination_address = some v ∧
      dictFind r (d ++ ":destination-address") = some v) ∧
    (∃ v, g.source_port = some v ∧ dictFind r (d ++ ":source_port") = some v) ∧
    (∃ v, g.destination_port = some v ∧
      dictFind r (d ++ ":destination-port") = some v) ∧
    (∃ v, g.protocol = some v ∧ dictFind r (d ++ ":protocol") = some v) ∧
    (∃ v, g.byte_cnt = some v ∧ dictFind r (d ++ ":byte-count") = some v) := by
  obtain ⟨sid, sst, pol, tmo, stt, dur, cto, _, _, _, _, _, _, _, hm⟩ :=
    buildRecord_ok_elim h
  rw [hflows, mergeFlows_append] at hm
  cases hpre : mergeFlows (baseDict sid sst pol tmo stt dur cto) pre with
  | error e => rw [hpre] at hm; cases hm
  | ok r₁ =>
    rw [hpre] at hm
    exact mergeFlows_last_dir hm hg hpost

/-- Witness for C5: in `sC` the direction `In` occurs twice and the record
holds the second wing's byte count. -/
theorem c5_last_write_wins_witness :
    ∃ v, fIn2.byte_cnt = some v ∧ dictFind recC ("In" ++ ":byte-count") = some v :=
  (c5_last_write_wins sC recC "In" [fIn1] [fOut] fIn2 rfl rfl
    ⟨fIn1, List.mem_cons_self fIn1 [], rfl⟩ rfl
    (by
      intro f hf
      rw [List.mem_singleton] at hf
      subst hf
      exact fun hcon => absurd hcon (by decide))).2.2.2.2.2

/-- C8: every merged flow stores its source port under
`<direction>:source_port` (underscore) while the other five directional
fields use hyphenated names, and no record key ever has the hyphenated form
`<direction>:source-port`, for any direction string whatsoever. -/
theorem c8_source_port_underscore (s : RawSession) (r : SessionRecord)
    (h : buildRecord s = .ok r) :
    (∀ d : String, dictFind r (d ++ ":source-port") = none) ∧
    (∀ f ∈ s.flows, ∀ d : String, f.direction = some (some d) →
      (dictFind r (d ++ ":source_port")).isSome ∧
      (dictFind r (d ++ ":source-address")).isSome ∧
      (dictFind r (d ++ ":destination-address")).isSome ∧
      (dictFind r (d ++ ":destination-port")).isSome ∧
      (dictFind r (d ++ ":protocol")).isSome ∧
      (dictFind r (d ++ ":byte-count")).isSome) := by
  obtain ⟨sid, sst, pol, tmo, stt, dur, cto, _, _, _, _, _, _, _, hm⟩ :=
    buildRecord_ok_elim h
  constructor
  · intro d
    cases hfind : dictFind r (d ++ ":source-port") with
    | none => rfl
    | some v =>
      exfalso
      have hs : (dictFind r (d ++ ":source-port")).isSome := by
        rw [hfind]
        rfl
      rcases mergeFlows_key_shape hm hs with hb | ⟨f, _, d', _, t, ht, heq⟩
      · rw [dictFind_isSome_iff_mem, baseDict_keys] at hb
        exact (dirKey_ne_base (by decide) hb d) rfl
      · have htne : (":source-port" : String) ≠ t := by
          simp only [realTails, List.mem_cons, List.not_mem_nil, or_false] at ht
          rcases ht with rfl | rfl | rfl | rfl | rfl | rfl <;> decide
        exact dirKey_ne_dirKey (by decide) (realTails_subset ht) htne d d' heq
  · intro f hf d hd
    have hpres := mergeFlows_dir_present hm hf hd
    exact ⟨hpres ":source_port" (by decide), hpres ":source-address" (by decide),
      hpres ":destination-address" (by decide), hpres ":destination-port" (by decide),
      hpres ":protocol" (by decide), hpres ":byte-count" (by decide)⟩

/-- Witness for C8: the single-wing record of `sW` has the underscored
`In:source_port` key and no hyphenated `In:source-port` key. -/
theorem c8_source_port_underscore_witness :
    dictFind recW ("In" ++ ":source-port") = none ∧
    (dictFind recW ("In" ++ ":source_port")).isSome :=
  ⟨(c8_source_port_underscore sW recW rfl).1 "In",
   ((c8_source_port_underscore sW recW rfl).2 fIn1 (List.mem_cons_self fIn1 [])
     "In" rfl).1⟩

/-- C9: in monitoring mode the OK line is produced only when the first record
carries all five looked-up fields; if any of them is absent (for instance
because the session lacks an `In` wing, in which case `In:byte-count` is
absent from the record), the lookup yields `None` and the string
concatenation raises `TypeError` instead of printing a placeholder line. -/
theorem c9_ok_requires_fields :
    (∀ (r : SessionRecord) (rest : List SessionRecord),
      (pyGet r "session-id" = none ∨ pyGet r "In:byte-count" = none ∨
       pyGet r "Out:byte-count" = none ∨ pyGet r "configured-timeout" = none ∨
       pyGet r "timeout" = none) →
      mainNagios (r :: rest) = .error PyError.typeError) ∧
    (∀ (s : RawSession) (r : SessionRecord), buildRecord s = .ok r →
      (∀ f ∈ s.flows, f.direction ≠ some (some "In")) →
      pyGet r "In:byte-count" = none) := by
  constructor
  · intro r rest hmiss
    show (match okLine r with
      | Except.error e => Except.error e
      | Except.ok line => Except.ok (line, 0)) = _
    unfold okLine
    cases h1 : pyGet r "session-id" with
    | none => rfl
    | some i =>
      cases h2 : pyGet r "In:byte-count" with
      | none => rfl
      | some bi =>
        cases h3 : pyGet r "Out:byte-count" with
        | none => rfl
        | some bo =>
          cases h4 : pyGet r "configured-timeout" with
          | none => rfl
          | some ct =>
            cases h5 : pyGet r "timeout" with
            | none => rfl
            | some tm =>
              rcases hmiss with hm | hm | hm | hm | hm <;> simp_all
  · intro s r h hno
    exact buildRecord_no_in_flow h hno

/-- Witness for C9: a first record missing `In:byte-count` makes the
monitoring branch raise, and the flow-less record of `sA` indeed lacks
`In:byte-count`. -/
theorem c9_ok_requires_fields_witness :
    mainNagios [recA] = .error PyError.typeError ∧
    pyGet recA "In:byte-count" = none :=
  ⟨c9_ok_requires_fields.1 recA [] (Or.inr (Or.inl rfl)),
   c9_ok_requires_fields.2 sA recA rfl (fun f hf => absurd hf (List.not_mem_nil f))⟩

/-- C6 counterexample: `sCx` is active, has exactly the two wings `In` and
`Out`, and extraction succeeds, yet the record's `policy` field holds `None`
(its element is present but empty), so not every field value of such a
record is a non-empty string as the claim states. -/
theorem c6_counterexample :
    buildRecord sCx = .ok recCx ∧ sessionActive sCx = true ∧
    sCx.flows.map RawFlow.direction = [some (some "In"), some (some "Out")] ∧
    dictFind recCx "policy" = some none ∧ ¬ valOk none := by
  refine ⟨rfl, rfl, rfl, rfl, ?_⟩
  simp [valOk]

/-- C6 (amended): for an active session whose flows are exactly the `In` and
`Out` wings (both present), the record has exactly the 7 base keys plus the
12 directional keys (6 per direction) and no others; its stored values are
the elements' verbatim texts, so they are all non-empty strings provided
every referenced element carries non-empty text. -/
theorem c6_fields_amended (s : RawSession) (r : SessionRecord)
    (h : buildRecord s = .ok r)
    (_hact : sessionActive s = true)
    (hdirs : ∀ f ∈ s.flows,
      f.direction = some (some "In") ∨ f.direction = some (some "Out"))
    (hin : ∃ f ∈ s.flows, f.direction = some (some "In"))
    (hout : ∃ f ∈ s.flows, f.direction = some (some "Out"))
    (htexts : sessionTextsOk s) :
    (∀ k, (dictFind r k).isSome ↔ k ∈ keys19) ∧ (r.map Prod.fst).Nodup ∧
    r.length = 19 ∧ (∀ k v, dictFind r k = some v → valOk v) := by
  obtain ⟨hiff, hnod, hlen⟩ := buildRecord_keys_inout h hdirs hin hout
  refine ⟨hiff, hnod, hlen, ?_⟩
  obtain ⟨sid, sst, pol, tmo, stt, dur, cto, e1, e2, e3, e4, e5, e6, e7, hm⟩ :=
    buildRecord_ok_elim h
  obtain ⟨x1, x2, x3, x4, x5, x6, x7, hfl⟩ := htexts
  have w1 : valOk sid := by
    obtain ⟨t, et, gt⟩ := x1
    exact ⟨t, Option.some.inj (e1 ▸ et), gt⟩
  have w2 : valOk sst := by
    obtain ⟨t, et, gt⟩ := x2
    exact ⟨t, Option.some.inj (e2 ▸ et), gt⟩
  have w3 : valOk pol := by
    obtain ⟨t, et, gt⟩ := x3
    exact ⟨t, Option.some.inj (e3 ▸ et), gt⟩
  have w4 : valOk tmo := by
    obtain ⟨t, et, gt⟩ := x4
    exact ⟨t, Option.some.inj (e4 ▸ et), gt⟩
  have w5 : valOk stt := by
    obtain ⟨t, et, gt⟩ := x5
    exact ⟨t, Option.some.inj (e5 ▸ et), gt⟩
  have w6 : valOk dur := by
    obtain ⟨t, et, gt⟩ := x6
    exact ⟨t, Option.some.inj (e6 ▸ et), gt⟩
  have w7 : valOk cto := by
    obtain ⟨t, et, gt⟩ := x7
    exact ⟨t, Option.some.inj (e7 ▸ et), gt⟩
  have hbase : ∀ k' v',
      dictFind (baseDict sid sst pol tmo stt dur cto) k' = some v' → valOk v' := by
    intro k' v' hk
    obtain ⟨p, hp, _, hv⟩ := dictFind_eq_some_mem hk
    subst hv
    simp only [baseDict, List.mem_cons, List.not_mem_nil, or_false] at hp
    rcases hp with rfl | rfl | rfl | rfl | rfl | rfl | rfl
    · exact w1
    · exact w2
    · exact w3
    · exact w4
    · exact w5
    · exact w6
    · exact w7
  exact mergeFlows_valOk hm hfl hbase

/-- Witness for the amended C6: the fully well-formed two-wing session `sC`
produces a 19-field record with all values non-empty. -/
theorem c6_fields_amended_witness :
    (∀ k, (dictFind recC k).isSome ↔ k ∈ keys19) ∧ (recC.map Prod.fst).Nodup ∧
    recC.length = 19 ∧ (∀ k v, dictFind recC k = some v → valOk v) :=
  c6_fields_amended sC recC rfl rfl
    (by
      intro f hf
      simp only [sC, List.mem_cons, List.not_mem_nil, or_false] at hf
      rcases hf with rfl | rfl | rfl
      · exact Or.inl rfl
      · exact Or.inl rfl
      · exact Or.inr rfl)
    ⟨fIn1, List.mem_cons_self fIn1 [fIn2, fOut], rfl⟩
    ⟨fOut, by decide, rfl⟩
    (by
      refine ⟨⟨"100", rfl, by decide⟩, ⟨"Active", rfl, by decide⟩,
        ⟨"pol", rfl, by decide⟩, ⟨"3999", rfl, by decide⟩,
        ⟨"stt", rfl, by decide⟩, ⟨"77", rfl, by decide⟩,
        ⟨"4000", rfl, by decide⟩, ?_⟩
      intro f hf
      simp only [sC, List.mem_cons, List.not_mem_nil, or_false] at hf
      rcases hf with rfl | rfl | rfl
      · exact ⟨⟨"1.1.1.1", rfl, by decide⟩, ⟨"2.2.2.2", rfl, by decide⟩,
          ⟨"1111", rfl, by decide⟩, ⟨"80", rfl, by decide⟩,
          ⟨"tcp", rfl, by decide⟩, ⟨"10", rfl, by decide⟩⟩
      · exact ⟨⟨"3.3.3.3", rfl, by decide⟩, ⟨"4.4.4.4", rfl, by decide⟩,
          ⟨"2222", rfl, by decide⟩, ⟨"443", rfl, by decide⟩,
          ⟨"udp", rfl, by decide⟩, ⟨"20", rfl, by decide⟩⟩
      · exact ⟨⟨"5.5.5.5", rfl, by decide⟩, ⟨"6.6.6.6", rfl, by decide⟩,
          ⟨"3333", rfl, by decide⟩, ⟨"22", rfl, by decide⟩,
          ⟨"tcp", rfl, by decide⟩, ⟨"30", rfl, by decide⟩⟩)
